import Mathlib

/-!
Verification of the cluster provisioning and bootstrap orchestrator of
avalanche-cli against its specification.  Go code is shallowly embedded:
pure helpers become Lean functions, remote and file-system effects become
explicit oracles and state passing, Go errors become Option String values
(none models a nil error).
-/

namespace AvalancheCLI

/-- A Go error is modelled by its message, as produced by the Error method. -/
abbrev GoError := String

/-- Host record from src/pkg/models/host.go. -/
structure Host where
  NodeID : String
  IP : String
  SSHUser : String
  SSHPrivateKeyPath : String
  SSHCommonArgs : String
deriving DecidableEq, Repr

/-! ## Host.GetNodeID (src/pkg/models/host.go lines 40-46) -/

/-- Models Go strings.Split with a one-character separator, as used at
strings.Split(h.NodeID, "_") in Host.GetNodeID.  Splitting the empty
string yields one empty field, matching Go. -/
def goSplitChar (sep : Char) : List Char → List (List Char)
  | [] => [[]]
  | c :: cs =>
    let rest := goSplitChar sep cs
    if c = sep then [] :: rest
    else (c :: rest.headI) :: rest.tail

/-- Models Go strings.Join. -/
def goJoin (sep : List Char) (parts : List (List Char)) : List Char :=
  match parts with
  | [] => []
  | p :: ps => ps.foldl (fun acc q => acc ++ sep ++ q) p

theorem goSplitChar_ne_nil (sep : Char) (l : List Char) : goSplitChar sep l ≠ [] := by
  cases l with
  | nil => simp [goSplitChar]
  | cons c cs =>
    simp only [goSplitChar]
    split <;> simp

theorem goSplitChar_length (sep : Char) (l : List Char) :
    (goSplitChar sep l).length = l.count sep + 1 := by
  induction l with
  | nil => simp [goSplitChar]
  | cons c cs ih =>
    simp only [goSplitChar]
    split
    · next hceq =>
      subst hceq
      simp [List.count_cons, ih]
    · next hcne =>
      have hne := goSplitChar_ne_nil sep cs
      have hpos : 0 < (goSplitChar sep cs).length := List.length_pos.mpr hne
      simp only [List.length_cons, List.length_tail]
      rw [List.count_cons]
      simp only [beq_iff_eq]
      rw [if_neg hcne]
      omega

/-- Host.GetNodeID from src/pkg/models/host.go.  When the NodeID carries the
AWS prefix the prefix is trimmed; otherwise the first two fields of the
split at underscores are joined.  Go slicing parts[:2] panics when the
split has fewer than two fields; the panic is modelled as none.
constants.AnsibleAWSNodePrefix is not under src/, so the prefix value is a
parameter awsPfx. -/
def Host.GetNodeID (awsPfx : List Char) (h : Host) : Option (List Char) :=
  let nodeID := h.NodeID.toList
  if awsPfx.isPrefixOf nodeID then
    some (nodeID.drop awsPfx.length)
  else
    let parts := goSplitChar '_' nodeID
    if 2 ≤ parts.length then some (goJoin ['_'] (parts.take 2)) else none

/-- C10: Host.GetNodeID is partial at the public interface: it has no
defined result exactly when the NodeID neither starts with the AWS node
name prefix nor contains an underscore; in that case parts[:2] indexes out
of range.  With the prefix or at least one underscore the result is total. -/
theorem C10_getNodeID_out_of_range (awsPfx : List Char) (h : Host) :
    Host.GetNodeID awsPfx h = none ↔
      (awsPfx.isPrefixOf h.NodeID.toList = false ∧ '_' ∉ h.NodeID.toList) := by
  unfold Host.GetNodeID
  by_cases hp : awsPfx.isPrefixOf h.NodeID.toList = true
  · rw [if_pos hp]
    constructor
    · intro hnone
      exact Option.noConfusion hnone
    · rintro ⟨hf, -⟩
      rw [hp] at hf
      exact Bool.noConfusion hf
  · rw [if_neg hp]
    have hlen := goSplitChar_length '_' h.NodeID.toList
    simp only [Bool.not_eq_true] at hp
    by_cases hm : '_' ∈ h.NodeID.toList
    · have hcz : h.NodeID.toList.count '_' ≠ 0 :=
        fun h0 => (List.count_eq_zero.mp h0) hm
      rw [if_pos (by omega)]
      constructor
      · intro hnone
        exact Option.noConfusion hnone
      · rintro ⟨-, hnm⟩
        exact absurd hm hnm
    · have hcz : h.NodeID.toList.count '_' = 0 := List.count_eq_zero.mpr hm
      rw [if_neg (by omega)]
      exact iff_of_true rfl ⟨hp, hm⟩

/-! ## Result aggregator (models.NodeResults)

Modelled from the spec: models.NodeResults and its methods are not under
src/, only their callers are.  Spec section 4.4 describes an insert
operation taking a host identity, an optional payload and an optional
error, safe to call concurrently from every worker, plus error queries and
a count, read only after the join barrier.  The post barrier contents are
modelled as the list of inserted outcomes in dispatch order. -/

/-- One inserted outcome: the host identity and the optional error. -/
structure NodeOutcome where
  NodeID : String
  Err : Option GoError
deriving DecidableEq, Repr

/-- Modelled from the spec: the aggregator state after the join barrier. -/
abbrev NodeResults := List NodeOutcome

/-- Modelled from the spec: the count query. -/
def NodeResults.Len (nr : NodeResults) : Nat := nr.length

/-- Modelled from the spec: the query returning all inserted outcomes. -/
def NodeResults.GetResults (nr : NodeResults) : List NodeOutcome := nr

/-- Modelled from the spec: the list of host identities with an outcome. -/
def NodeResults.GetNodeList (nr : NodeResults) : List String :=
  nr.map NodeOutcome.NodeID

/-- Modelled from the spec: the mapping from host identity to its error. -/
def NodeResults.GetErrorHostMap (nr : NodeResults) (nodeID : String) : Option GoError :=
  (nr.find? (fun r => r.NodeID == nodeID)).bind NodeOutcome.Err

/-- Modelled from the spec: the has-error-for-host query. -/
def NodeResults.HasNodeIDWithError (nr : NodeResults) (nodeID : String) : Bool :=
  nr.any (fun r => r.NodeID == nodeID && r.Err.isSome)

/-- Modelled from the spec: the any-error query. -/
def NodeResults.HasErrors (nr : NodeResults) : Bool :=
  nr.any (fun r => r.Err.isSome)

/-! ## Bootstrap pipeline engine (src/cmd/nodecmd/create.go lines 524-571) -/

/-- The remote stages of the per host bootstrap pipeline, in the order they
appear in the goroutine body of createNodes. -/
inductive BootstrapStage where
  | connect
  | provideStakingCertAndKey
  | setupNode
  | setupMachineMetrics
  | setupBuildEnv
  | setupCLIFromSource
deriving DecidableEq, BEq, Repr

/-- Per host results of the remote operations: for each pipeline stage, the
error that the remote call returns for this host (none models a nil Go
error).  The remote transport is an external collaborator, so its outcomes
are an oracle. -/
structure StepOracle where
  connect : Option GoError
  provideStakingCertAndKey : Option GoError
  setupNode : Option GoError
  setupMachineMetrics : Option GoError
  setupBuildEnv : Option GoError
  setupCLIFromSource : Option GoError
deriving DecidableEq, Repr

/-- The oracle entry for a given stage. -/
def StepOracle.stageErr (o : StepOracle) : BootstrapStage → Option GoError
  | .connect => o.connect
  | .provideStakingCertAndKey => o.provideStakingCertAndKey
  | .setupNode => o.setupNode
  | .setupMachineMetrics => o.setupMachineMetrics
  | .setupBuildEnv => o.setupBuildEnv
  | .setupCLIFromSource => o.setupCLIFromSource

/-- Tail of the worker body shared by both monitoring branches:
RunSSHSetupBuildEnv then RunSSHSetupCLIFromSource (create.go lines
555-568).  Returns the recorded error, if any, and the stages attempted. -/
def bootstrapTail (o : StepOracle) (done : List BootstrapStage) :
    Option GoError × List BootstrapStage :=
  match o.setupBuildEnv with
  | some e => (some e, done ++ [.setupBuildEnv])
  | none =>
    match o.setupCLIFromSource with
    | some e => (some e, done ++ [.setupBuildEnv, .setupCLIFromSource])
    | none => (none, done ++ [.setupBuildEnv, .setupCLIFromSource])

/-- The goroutine body dispatched per host by createNodes (lines 529-569):
Connect, provideStakingCertAndKey, RunSSHSetupNode, then (only when
addMonitoring) RunSSHSetupMachineMetrics, then RunSSHSetupBuildEnv and
RunSSHSetupCLIFromSource.  On the first failing stage the worker records
that error and returns, skipping the remaining stages.  Returns the error
the worker records in the aggregator (none when every stage succeeded and
nothing is recorded) together with the stages attempted in order. -/
def bootstrapWorker (addMonitoring : Bool) (o : StepOracle) :
    Option GoError × List BootstrapStage :=
  match o.connect with
  | some e => (some e, [.connect])
  | none =>
    match o.provideStakingCertAndKey with
    | some e => (some e, [.connect, .provideStakingCertAndKey])
    | none =>
      match o.setupNode with
      | some e => (some e, [.connect, .provideStakingCertAndKey, .setupNode])
      | none =>
        if addMonitoring then
          match o.setupMachineMetrics with
          | some e =>
            (some e,
             [.connect, .provideStakingCertAndKey, .setupNode, .setupMachineMetrics])
          | none =>
            bootstrapTail o
              [.connect, .provideStakingCertAndKey, .setupNode, .setupMachineMetrics]
        else
          bootstrapTail o [.connect, .provideStakingCertAndKey, .setupNode]

/-- The full pipeline order for a run with or without monitoring. -/
def fullBootstrapOrder (addMonitoring : Bool) : List BootstrapStage :=
  [.connect, .provideStakingCertAndKey, .setupNode] ++
    (if addMonitoring then [.setupMachineMetrics] else []) ++
    [.setupBuildEnv, .setupCLIFromSource]

/-- The bootstrap fan-out of createNodes (lines 524-571): one worker per
host, each inserting at most one outcome keyed by its own NodeID into the
shared NodeResults, followed by the join barrier wg.Wait.  Workers share no
mutable state besides the aggregator and write distinct keys, so the post
barrier aggregator state is the per host outcomes in dispatch order.  A
worker whose stages all succeed inserts nothing. -/
def bootstrapPhase (addMonitoring : Bool) (oracle : Host → StepOracle)
    (hosts : List Host) : NodeResults :=
  hosts.filterMap (fun h =>
    match (bootstrapWorker addMonitoring (oracle h)).1 with
    | some e => some ⟨h.NodeID, some e⟩
    | none => none)

/-- Reference semantics of a sequential fail-fast pipeline: run the stages
in the given order, stop at the first failing stage and return its error
together with the stages attempted. -/
def pipelineRun (o : StepOracle) : List BootstrapStage → Option GoError × List BootstrapStage
  | [] => (none, [])
  | st :: rest =>
    match o.stageErr st with
    | some e => (some e, [st])
    | none =>
      let r := pipelineRun o rest
      (r.1, st :: r.2)

theorem bootstrapWorker_eq_pipelineRun (addMonitoring : Bool) (o : StepOracle) :
    bootstrapWorker addMonitoring o = pipelineRun o (fullBootstrapOrder addMonitoring) := by
  obtain ⟨c, p, n, m, b, s⟩ := o
  cases addMonitoring <;> cases c <;> cases p <;> cases n <;> cases m <;>
    cases b <;> cases s <;> rfl

theorem pipelineRun_trace_initial (o : StepOracle) (l : List BootstrapStage) :
    (pipelineRun o l).2 <+: l := by
  induction l with
  | nil => simp [pipelineRun]
  | cons st rest ih =>
    simp only [pipelineRun]
    cases o.stageErr st with
    | some e => simp
    | none => simpa using ih

theorem pipelineRun_none (o : StepOracle) (l : List BootstrapStage)
    (h : (pipelineRun o l).1 = none) : (pipelineRun o l).2 = l := by
  induction l with
  | nil => rfl
  | cons st rest ih =>
    simp only [pipelineRun] at h ⊢
    cases hst : o.stageErr st with
    | some e => rw [hst] at h; exact Option.noConfusion h
    | none =>
      rw [hst] at h
      simp only at h ⊢
      rw [ih h]

theorem pipelineRun_some (o : StepOracle) (l : List BootstrapStage) (e : GoError)
    (h : (pipelineRun o l).1 = some e) :
    ∃ done st, (pipelineRun o l).2 = done ++ [st] ∧ o.stageErr st = some e
      ∧ ∀ st2 ∈ done, o.stageErr st2 = none := by
  induction l with
  | nil => exact Option.noConfusion h
  | cons st rest ih =>
    simp only [pipelineRun] at h ⊢
    cases hst : o.stageErr st with
    | some e2 =>
      rw [hst] at h
      simp only [Option.some.injEq] at h
      subst h
      exact ⟨[], st, by simp, hst, by simp⟩
    | none =>
      rw [hst] at h
      simp only at h
      obtain ⟨done, st2, htr, herr, hdone⟩ := ih h
      refine ⟨st :: done, st2, ?_, herr, ?_⟩
      · simp [htr]
      · intro st3 hst3
        rcases List.mem_cons.mp hst3 with rfl | hmem
        · exact hst
        · exact hdone st3 hmem

theorem bootstrapPhase_eq_filterMap (addMonitoring : Bool) (oracle : Host → StepOracle)
    (hosts : List Host) :
    bootstrapPhase addMonitoring oracle hosts
      = hosts.filterMap (fun h =>
          ((bootstrapWorker addMonitoring (oracle h)).1).map
            (fun e => ⟨h.NodeID, some e⟩)) := by
  unfold bootstrapPhase
  congr 1
  funext h
  cases (bootstrapWorker addMonitoring (oracle h)).1 <;> rfl

theorem bootstrapPhase_getNodeList (addMonitoring : Bool) (oracle : Host → StepOracle)
    (hosts : List Host) :
    NodeResults.GetNodeList (bootstrapPhase addMonitoring oracle hosts)
      = (hosts.filter
          (fun h => ((bootstrapWorker addMonitoring (oracle h)).1).isSome)).map
          Host.NodeID := by
  rw [bootstrapPhase_eq_filterMap]
  unfold NodeResults.GetNodeList
  induction hosts with
  | nil => rfl
  | cons h t ih =>
    rw [List.filterMap_cons, List.filter_cons]
    cases hw : (bootstrapWorker addMonitoring (oracle h)).1 with
    | none => simpa using ih
    | some e => simpa using ih

theorem mem_bootstrapPhase_nodeID (addMonitoring : Bool) (oracle : Host → StepOracle)
    (hosts : List Host) (r : NodeOutcome)
    (hr : r ∈ bootstrapPhase addMonitoring oracle hosts) :
    r.NodeID ∈ hosts.map Host.NodeID := by
  rw [bootstrapPhase_eq_filterMap] at hr
  rcases List.mem_filterMap.mp hr with ⟨h, hmem, heq⟩
  cases hw : (bootstrapWorker addMonitoring (oracle h)).1 with
  | none => rw [hw] at heq; exact absurd heq (by simp)
  | some e =>
    rw [hw] at heq
    have hre : (⟨h.NodeID, some e⟩ : NodeOutcome) = r := by simpa using heq
    rw [← hre]
    exact List.mem_map_of_mem Host.NodeID hmem

theorem getErrorHostMap_cons_ne (r : NodeOutcome) (nr : NodeResults) (nodeID : String)
    (hne : r.NodeID ≠ nodeID) :
    NodeResults.GetErrorHostMap (r :: nr) nodeID = NodeResults.GetErrorHostMap nr nodeID := by
  unfold NodeResults.GetErrorHostMap
  rw [List.find?_cons_of_neg _ (by simp [hne])]

theorem getErrorHostMap_cons_self (r : NodeOutcome) (nr : NodeResults) :
    NodeResults.GetErrorHostMap (r :: nr) r.NodeID = r.Err := by
  unfold NodeResults.GetErrorHostMap
  rw [List.find?_cons_of_pos _ (by simp)]
  rfl

theorem getErrorHostMap_of_not_mem (nr : NodeResults) (nodeID : String)
    (hni : nodeID ∉ NodeResults.GetNodeList nr) :
    NodeResults.GetErrorHostMap nr nodeID = none := by
  unfold NodeResults.GetErrorHostMap
  rw [List.find?_eq_none.mpr]
  · rfl
  · intro r hr hbeq
    rw [beq_iff_eq] at hbeq
    exact hni (hbeq ▸ List.mem_map_of_mem NodeOutcome.NodeID hr)

theorem bootstrapPhase_getErrorHostMap (addMonitoring : Bool) (oracle : Host → StepOracle) :
    ∀ hosts : List Host, (hosts.map Host.NodeID).Nodup → ∀ h ∈ hosts,
      NodeResults.GetErrorHostMap (bootstrapPhase addMonitoring oracle hosts) h.NodeID
        = (bootstrapWorker addMonitoring (oracle h)).1 := by
  intro hosts
  induction hosts with
  | nil => intro _ h hmem; exact absurd hmem (List.not_mem_nil h)
  | cons h0 t ih =>
    intro hnd h hmem
    rw [List.map_cons, List.nodup_cons] at hnd
    obtain ⟨hnotin, hndt⟩ := hnd
    have hphase : bootstrapPhase addMonitoring oracle (h0 :: t)
        = (((bootstrapWorker addMonitoring (oracle h0)).1).map
            (fun e => (⟨h0.NodeID, some e⟩ : NodeOutcome))).toList
          ++ bootstrapPhase addMonitoring oracle t := by
      rw [bootstrapPhase_eq_filterMap, bootstrapPhase_eq_filterMap, List.filterMap_cons]
      cases (bootstrapWorker addMonitoring (oracle h0)).1 <;> rfl
    rcases List.mem_cons.mp hmem with rfl | hmemt
    · cases hw : (bootstrapWorker addMonitoring (oracle h)).1 with
      | some e =>
        rw [hphase, hw]
        simpa using
          getErrorHostMap_cons_self ⟨h.NodeID, some e⟩ (bootstrapPhase addMonitoring oracle t)
      | none =>
        rw [hphase, hw]
        simp only [Option.map_none', Option.toList_none, List.nil_append]
        refine getErrorHostMap_of_not_mem _ _ (fun hin => ?_)
        rw [bootstrapPhase_getNodeList] at hin
        rcases List.mem_map.mp hin with ⟨h2, hh2, heq⟩
        exact hnotin
          (heq ▸ List.mem_map_of_mem Host.NodeID (List.mem_of_mem_filter hh2))
    · have hne : h0.NodeID ≠ h.NodeID := by
        intro heq
        exact hnotin (heq ▸ List.mem_map_of_mem Host.NodeID hmemt)
      rw [hphase]
      cases hw : (bootstrapWorker addMonitoring (oracle h0)).1 with
      | some e =>
        simp only [Option.map_some', Option.toList_some, List.singleton_append]
        rw [getErrorHostMap_cons_ne _ _ _ hne]
        exact ih hndt h hmemt
      | none =>
        simp only [Option.map_none', Option.toList_none, List.nil_append]
        exact ih hndt h hmemt

/-! ## Claim C1 -/

/-- The C1 claim as stated, for one run of the bootstrap phase: after the
join barrier the aggregator contains exactly one entry per host dispatched
into the phase. -/
def claimC1Holds (addMonitoring : Bool) (oracle : Host → StepOracle)
    (hosts : List Host) : Prop :=
  NodeResults.Len (bootstrapPhase addMonitoring oracle hosts) = hosts.length

/-- A host whose every remote stage succeeds under allOkOracle. -/
def c1Host : Host := ⟨"aws_node_i-0abc", "10.0.0.1", "ubuntu", "/keys/kp.pem", ""⟩

/-- An oracle under which every remote stage succeeds. -/
def allOkOracle : StepOracle := ⟨none, none, none, none, none, none⟩

/-- An oracle whose connect stage fails. -/
def connectFailOracle : StepOracle :=
  ⟨some ("dial tcp: i/o timeout"), none, none, none, none, none⟩

/-- C1 counterexample: dispatch one host whose stages all succeed.  The
worker records nothing in the aggregator (AddResult is called only on a
step error in create.go lines 529-569), so the aggregator has 0 entries
while 1 host was dispatched. -/
theorem C1_counterexample : ¬ claimC1Holds false (fun _ => allOkOracle) [c1Host] := by
  show ¬ (NodeResults.Len (bootstrapPhase false (fun _ => allOkOracle) [c1Host])
    = [c1Host].length)
  decide

/-- C1 amended: after the join barrier the aggregator holds exactly one
entry per dispatched host whose pipeline failed, in dispatch order and
carrying that worker's own error; a host whose stages all succeed
contributes no entry, and no entry is duplicated or overwritten. -/
theorem C1_amended_one_entry_per_failed_host (addMonitoring : Bool)
    (oracle : Host → StepOracle) (hosts : List Host)
    (hnd : (hosts.map Host.NodeID).Nodup) :
    NodeResults.GetNodeList (bootstrapPhase addMonitoring oracle hosts)
      = (hosts.filter
          (fun h => ((bootstrapWorker addMonitoring (oracle h)).1).isSome)).map
          Host.NodeID
    ∧ (NodeResults.GetNodeList (bootstrapPhase addMonitoring oracle hosts)).Nodup
    ∧ ∀ h ∈ hosts,
        NodeResults.GetErrorHostMap (bootstrapPhase addMonitoring oracle hosts) h.NodeID
          = (bootstrapWorker addMonitoring (oracle h)).1 := by
  refine ⟨bootstrapPhase_getNodeList addMonitoring oracle hosts, ?_,
    fun h hm => bootstrapPhase_getErrorHostMap addMonitoring oracle hosts hnd h hm⟩
  rw [bootstrapPhase_getNodeList]
  exact List.Nodup.sublist (List.Sublist.map Host.NodeID (List.filter_sublist hosts)) hnd

/-- A second host, used together with c1Host in witness runs. -/
def c1HostB : Host := ⟨"aws_node_i-1def", "10.0.0.2", "ubuntu", "/keys/kp.pem", ""⟩

/-- Witness oracle: the first host fails at connect, the second succeeds. -/
def c1Oracle (h : Host) : StepOracle :=
  if h.NodeID = "aws_node_i-0abc" then connectFailOracle else allOkOracle

theorem C1_witness :
    ([c1Host, c1HostB].map Host.NodeID).Nodup
    ∧ (NodeResults.GetNodeList (bootstrapPhase false c1Oracle [c1Host, c1HostB])
        = ([c1Host, c1HostB].filter
            (fun h => ((bootstrapWorker false (c1Oracle h)).1).isSome)).map Host.NodeID
      ∧ (NodeResults.GetNodeList (bootstrapPhase false c1Oracle [c1Host, c1HostB])).Nodup
      ∧ ∀ h ∈ [c1Host, c1HostB],
          NodeResults.GetErrorHostMap (bootstrapPhase false c1Oracle [c1Host, c1HostB]) h.NodeID
            = (bootstrapWorker false (c1Oracle h)).1) :=
  ⟨by decide, C1_amended_one_entry_per_failed_host false c1Oracle [c1Host, c1HostB] (by decide)⟩

/-! ## Claim C2 -/

/-- C2: for every host entering the bootstrap pipeline the remote steps run
exactly in the fixed order connect, staking upload, RunSSHSetupNode, then
RunSSHSetupMachineMetrics only when monitoring is enabled, then
RunSSHSetupBuildEnv, then RunSSHSetupCLIFromSource; the worker equals the
fail-fast run of that order, so a failing step ends that host with exactly
that error and skips the rest, and each host's recorded outcome in the
shared aggregator is computed from its own oracle alone, unaffected by
sibling hosts. -/
theorem C2_pipeline_order_and_isolation (addMonitoring : Bool) (o : StepOracle)
    (oracle : Host → StepOracle) (hosts : List Host) (h : Host)
    (hmem : h ∈ hosts) (hnd : (hosts.map Host.NodeID).Nodup) :
    bootstrapWorker addMonitoring o = pipelineRun o (fullBootstrapOrder addMonitoring)
    ∧ (bootstrapWorker addMonitoring o).2 <+: fullBootstrapOrder addMonitoring
    ∧ ((bootstrapWorker addMonitoring o).1 = none →
        (bootstrapWorker addMonitoring o).2 = fullBootstrapOrder addMonitoring)
    ∧ (∀ e, (bootstrapWorker addMonitoring o).1 = some e →
        ∃ done st, (bootstrapWorker addMonitoring o).2 = done ++ [st]
          ∧ o.stageErr st = some e ∧ ∀ st2 ∈ done, o.stageErr st2 = none)
    ∧ NodeResults.GetErrorHostMap (bootstrapPhase addMonitoring oracle hosts) h.NodeID
        = (bootstrapWorker addMonitoring (oracle h)).1 := by
  have heq := bootstrapWorker_eq_pipelineRun addMonitoring o
  refine ⟨heq, ?_, ?_, ?_,
    bootstrapPhase_getErrorHostMap addMonitoring oracle hosts hnd h hmem⟩
  · rw [heq]
    exact pipelineRun_trace_initial o (fullBootstrapOrder addMonitoring)
  · rw [heq]
    exact pipelineRun_none o (fullBootstrapOrder addMonitoring)
  · rw [heq]
    exact fun e => pipelineRun_some o (fullBootstrapOrder addMonitoring) e

theorem C2_witness :
    (c1Host ∈ [c1Host, c1HostB] ∧ ([c1Host, c1HostB].map Host.NodeID).Nodup)
    ∧ (bootstrapWorker true connectFailOracle
        = pipelineRun connectFailOracle (fullBootstrapOrder true)
      ∧ (bootstrapWorker true connectFailOracle).2 <+: fullBootstrapOrder true
      ∧ ((bootstrapWorker true connectFailOracle).1 = none →
          (bootstrapWorker true connectFailOracle).2 = fullBootstrapOrder true)
      ∧ (∀ e, (bootstrapWorker true connectFailOracle).1 = some e →
          ∃ done st, (bootstrapWorker true connectFailOracle).2 = done ++ [st]
            ∧ connectFailOracle.stageErr st = some e
            ∧ ∀ st2 ∈ done, connectFailOracle.stageErr st2 = none)
      ∧ NodeResults.GetErrorHostMap (bootstrapPhase true c1Oracle [c1Host, c1HostB])
            c1Host.NodeID
          = (bootstrapWorker true (c1Oracle c1Host)).1) :=
  ⟨⟨by decide, by decide⟩,
   C2_pipeline_order_and_isolation true connectFailOracle c1Oracle [c1Host, c1HostB]
     c1Host (by decide) (by decide)⟩

/-! ## Readiness gate (src/cmd/nodecmd/create.go lines 515-522 and 1162-1182) -/

/-- waitForHosts from create.go lines 1162-1182: one worker per host waits
for the remote shell and inserts an outcome into the shared NodeResults
only on failure, followed by the join barrier.  Host.WaitForSSHShell is not
under src/, so each host's readiness result is the oracle reach (none
models a host that became reachable within the timeout). -/
def waitForHosts (reach : Host → Option GoError) (hosts : List Host) : NodeResults :=
  hosts.filterMap (fun h =>
    (reach h).map (fun e => (⟨h.NodeID, some e⟩ : NodeOutcome)))

/-- Observable actions of createNodes after the inventory is built: a
per-failed-host provisioning message, a remote bootstrap step on a host,
or a teardown of a host.  The code has no teardown path; the constructor
exists so that its absence is a provable statement. -/
inductive CreateEvent where
  | printFailedProvision (nodeID : String) (e : GoError)
  | remoteStep (nodeID : String) (stage : BootstrapStage)
  | teardown (nodeID : String)
deriving DecidableEq, Repr

/-- createNodes from the readiness gate onward (create.go lines 515-571):
run waitForHosts; when any host failed, print one message per failed host
and return the aggregate error carrying failedHosts.GetNodeList, without
dispatching any bootstrap worker; otherwise dispatch the bootstrap phase.
The first component is the outcome, the second the list of observable
events. -/
def createNodesFromGate (addMonitoring : Bool) (reach : Host → Option GoError)
    (oracle : Host → StepOracle) (hosts : List Host) :
    Except (List String) NodeResults × List CreateEvent :=
  let failedHosts := waitForHosts reach hosts
  if 0 < failedHosts.Len then
    (.error failedHosts.GetNodeList,
     failedHosts.GetResults.filterMap
       (fun r => r.Err.map (fun e => CreateEvent.printFailedProvision r.NodeID e)))
  else
    (.ok (bootstrapPhase addMonitoring oracle hosts),
     hosts.flatMap (fun h =>
       ((bootstrapWorker addMonitoring (oracle h)).2).map
         (fun st => CreateEvent.remoteStep h.NodeID st)))

theorem waitForHosts_getNodeList (reach : Host → Option GoError) (hosts : List Host) :
    NodeResults.GetNodeList (waitForHosts reach hosts)
      = (hosts.filter (fun h => (reach h).isSome)).map Host.NodeID := by
  unfold waitForHosts NodeResults.GetNodeList
  induction hosts with
  | nil => rfl
  | cons h t ih =>
    rw [List.filterMap_cons, List.filter_cons]
    cases hw : reach h with
    | none => simpa using ih
    | some e => simpa using ih

theorem mem_waitForHosts (reach : Host → Option GoError) (hosts : List Host)
    (h : Host) (e : GoError) (hmem : h ∈ hosts) (hre : reach h = some e) :
    (⟨h.NodeID, some e⟩ : NodeOutcome) ∈ waitForHosts reach hosts := by
  unfold waitForHosts
  exact List.mem_filterMap.mpr ⟨h, hmem, by rw [hre]; rfl⟩

/-- C3: whenever at least one host fails the readiness gate, createNodes
prints a provisioning failure message for every failed host with its error,
returns the aggregate error naming exactly the identities of the failed
hosts, runs no bootstrap step on any host, and performs no teardown of the
hosts that did become reachable (the only events are the failure prints). -/
theorem C3_readiness_failure_aborts_run (addMonitoring : Bool)
    (reach : Host → Option GoError) (oracle : Host → StepOracle)
    (hosts : List Host) (h0 : Host) (e0 : GoError)
    (hmem : h0 ∈ hosts) (hfail : reach h0 = some e0) :
    (createNodesFromGate addMonitoring reach oracle hosts).1
        = .error ((hosts.filter (fun h => (reach h).isSome)).map Host.NodeID)
    ∧ (∀ h ∈ hosts, ∀ e, reach h = some e →
        CreateEvent.printFailedProvision h.NodeID e
          ∈ (createNodesFromGate addMonitoring reach oracle hosts).2)
    ∧ (∀ ev ∈ (createNodesFromGate addMonitoring reach oracle hosts).2,
        ∃ nid e, ev = CreateEvent.printFailedProvision nid e) := by
  have hpos : 0 < (waitForHosts reach hosts).Len := by
    have hm := mem_waitForHosts reach hosts h0 e0 hmem hfail
    unfold NodeResults.Len
    exact List.length_pos.mpr (List.ne_nil_of_mem hm)
  unfold createNodesFromGate
  rw [if_pos hpos]
  refine ⟨by rw [waitForHosts_getNodeList], ?_, ?_⟩
  · intro h hm e hre
    refine List.mem_filterMap.mpr
      ⟨⟨h.NodeID, some e⟩, mem_waitForHosts reach hosts h e hm hre, rfl⟩
  · intro ev hev
    rcases List.mem_filterMap.mp hev with ⟨r, hr, heq⟩
    cases he : r.Err with
    | none => rw [he] at heq; exact absurd heq (by simp)
    | some e =>
      rw [he] at heq
      exact ⟨r.NodeID, e, by simpa using heq.symm⟩

/-- Concrete readiness oracle for the C3 witness: the first host times out,
the second is reachable. -/
def c3Reach (h : Host) : Option GoError :=
  if h.NodeID = "aws_node_i-0abc" then some ("ssh: wait timeout") else none

theorem C3_witness :
    (c1Host ∈ [c1Host, c1HostB] ∧ c3Reach c1Host = some ("ssh: wait timeout"))
    ∧ ((createNodesFromGate false c3Reach c1Oracle [c1Host, c1HostB]).1
        = .error (([c1Host, c1HostB].filter (fun h => (c3Reach h).isSome)).map Host.NodeID)
      ∧ (∀ h ∈ [c1Host, c1HostB], ∀ e, c3Reach h = some e →
          CreateEvent.printFailedProvision h.NodeID e
            ∈ (createNodesFromGate false c3Reach c1Oracle [c1Host, c1HostB]).2)
      ∧ (∀ ev ∈ (createNodesFromGate false c3Reach c1Oracle [c1Host, c1HostB]).2,
          ∃ nid e, ev = CreateEvent.printFailedProvision nid e)) :=
  ⟨⟨by decide, by decide⟩,
   C3_readiness_failure_aborts_run false c3Reach c1Oracle [c1Host, c1HostB]
     c1Host ("ssh: wait timeout") (by decide) (by decide)⟩

/-! ## RunOverSSH with task splitting (src/unnamed/part_002) -/

namespace sshtask

/-- isSSHHandshakeEOFError from src/unnamed/part_002 lines 113-115: a
non-nil error whose message is exactly the handshake EOF message. -/
def isSSHHandshakeEOFError : Option GoError → Bool
  | none => false
  | some msg => msg == "ssh: handshake failed: EOF"

/-- The bash header written at the start of every task buffer by
splitScript (src/unnamed/part_002 lines 42 and 57). -/
def scriptHeader : List String := ["#/usr/bin/env bash", "set -euo pipefail"]

/-- Loop body of splitScript: lines starting with the separator close the
current buffer and are recorded as separators; other lines are appended to
the current buffer; the final buffer is appended at end of input.  The Go
strings.HasPrefix check is expressed on the character lists. -/
def splitScriptLoop (sepPfx : String) :
    List String → List String → List (List String) × List String
  | curBuf, [] => ([curBuf], [])
  | curBuf, line :: rest =>
    if sepPfx.toList.isPrefixOf line.toList then
      let r := splitScriptLoop sepPfx scriptHeader rest
      (curBuf :: r.1, line :: r.2)
    else
      splitScriptLoop sepPfx (curBuf ++ [line]) rest

/-- splitScript from src/unnamed/part_002 lines 38-71, over the rendered
script as a list of lines: the separators list starts with the empty
string, so the first buffer always has an empty title. -/
def splitScript (sepPfx : String) (lines : List String) :
    List (List String) × List String :=
  let r := splitScriptLoop sepPfx scriptHeader lines
  (r.1, "" :: r.2)

/-- Record of one executed task of the RunOverSSH loop: the index of the
task in the split list, the index of its first remote Command invocation,
the number of invocations made for it, and its final result. -/
structure TaskRun where
  taskIdx : Nat
  callIdx : Nat
  attempts : Nat
  result : Option GoError
deriving DecidableEq, Repr

/-- The task loop of RunOverSSH (src/unnamed/part_002 lines 95-109): tasks
with an empty title are skipped; every other task is executed once and,
when that first execution fails with the handshake EOF error, executed a
second time after a pause (the pause has no observable effect here); the
loop returns the first final task error.  exec n is the result of the n-th
remote Command invocation of this RunOverSSH call. -/
def runTasksOverSSH (exec : Nat → Option GoError) :
    Nat → Nat → List (List String × String) → Option GoError × List TaskRun
  | _, _, [] => (none, [])
  | n, k, (_, title) :: rest =>
    if title = "" then runTasksOverSSH exec (n + 1) k rest
    else
      let att : Nat := if isSSHHandshakeEOFError (exec k) then 2 else 1
      let res : Option GoError :=
        if isSSHHandshakeEOFError (exec k) then exec (k + 1) else exec k
      if res.isSome then (res, [⟨n, k, att, res⟩])
      else
        let rec2 := runTasksOverSSH exec (n + 1) (k + att) rest
        (rec2.1, ⟨n, k, att, res⟩ :: rec2.2)

/-- RunOverSSH from src/unnamed/part_002 lines 75-111, from the point where
the script template has been rendered: split into tasks and run them. -/
def RunOverSSH (exec : Nat → Option GoError) (sepPfx : String)
    (renderedLines : List String) : Option GoError × List TaskRun :=
  let bt := splitScript sepPfx renderedLines
  runTasksOverSSH exec 0 0 (bt.1.zip bt.2)

theorem runTasksOverSSH_spec (exec : Nat → Option GoError) :
    ∀ (tasks : List (List String × String)) (n k : Nat) (r : TaskRun),
      r ∈ (runTasksOverSSH exec n k tasks).2 →
      r.attempts = (if isSSHHandshakeEOFError (exec r.callIdx) then 2 else 1)
      ∧ r.attempts ≤ 2
      ∧ r.result = (if isSSHHandshakeEOFError (exec r.callIdx) then exec (r.callIdx + 1)
          else exec r.callIdx) := by
  intro tasks
  induction tasks with
  | nil => intro n k r hr; exact absurd hr (List.not_mem_nil r)
  | cons tk rest ih =>
    intro n k r hr
    obtain ⟨task, title⟩ := tk
    by_cases ht : title = ""
    · simp only [runTasksOverSSH, if_pos ht] at hr
      exact ih (n + 1) k r hr
    · simp only [runTasksOverSSH, if_neg ht] at hr
      by_cases h2 : isSSHHandshakeEOFError (exec k) = true
      · simp only [h2, if_true] at hr
        cases hres : exec (k + 1) with
        | some e =>
          rw [hres] at hr
          simp only [Option.isSome_some, if_true, List.mem_singleton] at hr
          subst hr
          simp [h2, hres]
        | none =>
          rw [hres] at hr
          simp only [Option.isSome_none, Bool.false_eq_true, if_false,
            List.mem_cons] at hr
          rcases hr with rfl | hr
          · simp [h2, hres]
          · exact ih (n + 1) (k + 2) r hr
      · simp only [h2, Bool.false_eq_true, if_false] at hr
        cases hres : exec k with
        | some e =>
          rw [hres] at hr
          simp only [Option.isSome_some, if_true, List.mem_singleton] at hr
          subst hr
          simp only
          rw [hres] at h2
          simp [h2, hres]
        | none =>
          rw [hres] at hr
          simp only [Option.isSome_none, Bool.false_eq_true, if_false,
            List.mem_cons] at hr
          rcases hr with rfl | hr
          · simp only
            rw [hres] at h2
            simp [h2, hres]
          · exact ih (n + 1) (k + 1) r hr

/-- C4: no remote task run by RunOverSSH is automatically retried, with one
exception: a task whose first execution fails with the transient error
message "ssh: handshake failed: EOF" is executed exactly once more after a
short pause.  The invocation count of a task is 2 exactly in that case and
1 otherwise, and the final recorded result is the first result when not
retried and the retry result when retried. -/
theorem C4_retry_once_on_handshake_eof (exec : Nat → Option GoError)
    (sepPfx : String) (renderedLines : List String) (r : TaskRun)
    (hr : r ∈ (RunOverSSH exec sepPfx renderedLines).2) :
    r.attempts = (if isSSHHandshakeEOFError (exec r.callIdx) then 2 else 1)
    ∧ r.attempts ≤ 2
    ∧ r.result = (if isSSHHandshakeEOFError (exec r.callIdx) then exec (r.callIdx + 1)
        else exec r.callIdx) := by
  unfold RunOverSSH at hr
  exact runTasksOverSSH_spec exec _ 0 0 r hr

/-- Remote execution oracle for the C4 witness: the first invocation fails
with the handshake EOF message, later invocations succeed. -/
def c4exec (n : Nat) : Option GoError :=
  if n = 0 then some ("ssh: handshake failed: EOF") else none

/-- Rendered script lines for the C4 witness: one titled task. -/
def c4lines : List String := ["#name: setup", "echo hi"]

theorem C4_witness :
    ((⟨1, 0, 2, none⟩ : TaskRun) ∈ (RunOverSSH c4exec ("#name:") c4lines).2)
    ∧ ((⟨1, 0, 2, none⟩ : TaskRun).attempts
        = (if isSSHHandshakeEOFError (c4exec (⟨1, 0, 2, none⟩ : TaskRun).callIdx)
           then 2 else 1)
      ∧ (⟨1, 0, 2, none⟩ : TaskRun).attempts ≤ 2
      ∧ (⟨1, 0, 2, none⟩ : TaskRun).result
          = (if isSSHHandshakeEOFError (c4exec (⟨1, 0, 2, none⟩ : TaskRun).callIdx)
             then c4exec ((⟨1, 0, 2, none⟩ : TaskRun).callIdx + 1)
             else c4exec (⟨1, 0, 2, none⟩ : TaskRun).callIdx)) :=
  ⟨by decide,
   C4_retry_once_on_handshake_eof c4exec ("#name:") c4lines ⟨1, 0, 2, none⟩ (by decide)⟩

end sshtask

/-! ## API node split (src/cmd/nodecmd/create.go lines 371-377 and 441-447) -/

/-- NumNodes: per region requested counts of validator and API nodes, as
used through the numNodesMap of createNodes. -/
structure NumNodes where
  num : Nat
  numAPI : Nat
deriving DecidableEq, Repr

/-- Per region allocation result: the fields of models.RegionConfig that
the API split reads and writes (the full structure also records key pair,
security group, image and certificate data, untouched by the split). -/
structure RegionConfig where
  InstanceIDs : List String
  PublicIPs : List String
  APIInstanceIDs : List String
deriving DecidableEq, Repr

/-- Modelled from the spec: utils.SplitSliceAt is not under src/, only its
call sites are.  Per the spec, the API subset is computed by splitting the
instance identifier list at the given index, so the split yields the first
index elements and the remainder. -/
def SplitSliceAt (l : List α) (index : Nat) : List α × List α :=
  (l.take index, l.drop index)

/-- The loop body shared by the AWS branch (lines 371-377) and the GCP
branch (lines 441-447) of createNodes: the region instance id list is
split at length minus the requested API count, and the second half becomes
the region APIInstanceIDs. -/
def setRegionAPIInstanceIDs (cfg : RegionConfig) (numNodes : NumNodes) : RegionConfig :=
  { cfg with
    APIInstanceIDs :=
      (SplitSliceAt cfg.InstanceIDs (cfg.InstanceIDs.length - numNodes.numAPI)).2 }

/-- C5: in every region of the cluster allocation, given that the region
holds one instance per requested node (validators plus API nodes), that at
least one validator was requested (preCreateChecks rejects zero) and that
the instance identifiers are distinct (the allocation invariant), the
computed APIInstanceIDs has exactly the requested API node count and is a
strict subset of the region InstanceIDs. -/
theorem C5_api_subset (cfg : RegionConfig) (numNodes : NumNodes)
    (hlen : cfg.InstanceIDs.length = numNodes.num + numNodes.numAPI)
    (hval : 0 < numNodes.num)
    (hnd : cfg.InstanceIDs.Nodup) :
    (setRegionAPIInstanceIDs cfg numNodes).APIInstanceIDs.length = numNodes.numAPI
    ∧ (∀ x ∈ (setRegionAPIInstanceIDs cfg numNodes).APIInstanceIDs, x ∈ cfg.InstanceIDs)
    ∧ ∃ y ∈ cfg.InstanceIDs, y ∉ (setRegionAPIInstanceIDs cfg numNodes).APIInstanceIDs := by
  simp only [setRegionAPIInstanceIDs, SplitSliceAt]
  refine ⟨?_, ?_, ?_⟩
  · rw [List.length_drop]
    omega
  · intro x hx
    exact List.drop_subset _ _ hx
  · cases hids : cfg.InstanceIDs with
    | nil =>
      rw [hids] at hlen
      simp at hlen
      omega
    | cons x xs =>
      refine ⟨x, List.mem_cons_self x xs, ?_⟩
      rw [hids] at hnd
      have hm : ∃ m, (x :: xs).length - numNodes.numAPI = m + 1 := by
        rw [hids] at hlen
        simp only [List.length_cons] at hlen ⊢
        exact ⟨numNodes.num - 1, by omega⟩
      obtain ⟨m, hm⟩ := hm
      rw [hm, List.drop_succ_cons]
      intro hx
      exact (List.nodup_cons.mp hnd).1 (List.drop_subset _ _ hx)

/-- Concrete region for the C5 witness: two validators and one API node. -/
def c5Region : RegionConfig :=
  ⟨["i-0aa", "i-0bb", "i-0cc"], ["10.0.0.1", "10.0.0.2", "10.0.0.3"], []⟩

theorem C5_witness :
    (c5Region.InstanceIDs.length = (NumNodes.mk 2 1).num + (NumNodes.mk 2 1).numAPI
      ∧ 0 < (NumNodes.mk 2 1).num ∧ c5Region.InstanceIDs.Nodup)
    ∧ ((setRegionAPIInstanceIDs c5Region (NumNodes.mk 2 1)).APIInstanceIDs.length
          = (NumNodes.mk 2 1).numAPI
      ∧ (∀ x ∈ (setRegionAPIInstanceIDs c5Region (NumNodes.mk 2 1)).APIInstanceIDs,
          x ∈ c5Region.InstanceIDs)
      ∧ ∃ y ∈ c5Region.InstanceIDs,
          y ∉ (setRegionAPIInstanceIDs c5Region (NumNodes.mk 2 1)).APIInstanceIDs) :=
  ⟨⟨by decide, by decide, by decide⟩,
   C5_api_subset c5Region (NumNodes.mk 2 1) (by decide) (by decide) (by decide)⟩

/-! ## addHTTPHostToConfigFile (src/cmd/nodecmd/create.go lines 766-783) -/

/-- JSON values as decoded by Go json.Unmarshal into interface values.
Numbers are carried abstractly as integers; nothing in the modelled code
inspects them, it only moves them. -/
inductive JVal where
  | str (s : String)
  | num (q : Int)
  | jsonBool (b : Bool)
  | jsonNull
  | arr (l : List JVal)
  | obj (l : List (String × JVal))

/-- Content of a file as seen by addHTTPHostToConfigFile: either a JSON
object, modelled as a key to value map with Go map semantics, or data that
json.Unmarshal rejects. -/
inductive FileContent where
  | jsonObj (o : String → Option JVal)
  | malformed

/-- addHTTPHostToConfigFile from create.go lines 766-783, with the file
system as explicit state: open and parse the file at filePath, set the top
level field http-host to the string 0.0.0.0, marshal the object and write
it back to the same path.  Open and parse failures propagate as errors. -/
def addHTTPHostToConfigFile (fs : String → Option FileContent) (filePath : String) :
    Except GoError (String → Option FileContent) :=
  match fs filePath with
  | none => .error ("open failed")
  | some .malformed => .error ("unmarshal failed")
  | some (.jsonObj result) =>
    let result2 : String → Option JVal :=
      fun k => if k = "http-host" then some (.str ("0.0.0.0")) else result k
    .ok (fun p => if p = filePath then some (.jsonObj result2) else fs p)

/-- C6: for a well formed JSON object stored at filePath, the call succeeds
and rewrites exactly one top level field: http-host becomes the string
0.0.0.0, every other top level key keeps its value, and every other file is
untouched. -/
theorem C6_http_host_frame (fs : String → Option FileContent) (filePath : String)
    (o : String → Option JVal) (hfs : fs filePath = some (.jsonObj o)) :
    ∃ o2, addHTTPHostToConfigFile fs filePath
        = .ok (fun p => if p = filePath then some (.jsonObj o2) else fs p)
      ∧ o2 ("http-host") = some (.str ("0.0.0.0"))
      ∧ (∀ k, k ≠ "http-host" → o2 k = o k) := by
  refine ⟨fun k => if k = "http-host" then some (.str ("0.0.0.0")) else o k, ?_, by simp, ?_⟩
  · unfold addHTTPHostToConfigFile
    rw [hfs]
  · intro k hk
    simp [hk]

/-- Top level object of the node config file in the C6 witness. -/
def c6Obj : String → Option JVal :=
  fun k => if k = "http-port" then some (.num 9650) else none

/-- File system of the C6 witness: one node config file. -/
def c6fs : String → Option FileContent :=
  fun p => if p = "node.json" then some (.jsonObj c6Obj) else none

theorem C6_witness :
    c6fs ("node.json") = some (.jsonObj c6Obj)
    ∧ (∃ o2, addHTTPHostToConfigFile c6fs ("node.json")
        = .ok (fun p => if p = "node.json" then some (.jsonObj o2) else c6fs p)
      ∧ o2 ("http-host") = some (.str ("0.0.0.0"))
      ∧ (∀ k, k ≠ "http-host" → o2 k = c6Obj k)) :=
  ⟨rfl, C6_http_host_frame c6fs ("node.json") c6Obj rfl⟩

/-! ## Cluster topology store (src/cmd/nodecmd/create.go lines 839-863) -/

/-- Network kinds of models.Network.  Modelled from the spec: the models
package network type is not under src/; the spec records a network kind in
the persisted topology, with an undefined zero value. -/
inductive NetworkKind where
  | Undefined
  | Mainnet
  | Fuji
  | Devnet
  | Local
deriving DecidableEq, Repr

/-- Per cluster record of the persisted clusters configuration. -/
structure ClusterConfig where
  Network : NetworkKind
  MonitoringInstance : String
  Nodes : List String
  APINodes : List String
deriving DecidableEq, Repr

/-- The Go zero value of ClusterConfig, produced by indexing a missing
cluster name in the clusters map. -/
def ClusterConfig.zero : ClusterConfig := ⟨.Undefined, "", [], []⟩

/-- The persisted clusters configuration: the key pair map and the clusters
map, both with Go map semantics. -/
structure ClustersConfig where
  KeyPair : String → Option String
  Clusters : String → Option ClusterConfig

/-- The zero ClustersConfig, used when no configuration file exists. -/
def emptyClustersConfig : ClustersConfig := ⟨fun _ => none, fun _ => none⟩

/-- addNodeToClustersConfig from create.go lines 839-863, with the
persisted file as explicit state: load the stored configuration when one
exists (none models a missing file), take the named cluster record or its
zero value, overwrite its network with the given one, append nodeID to the
node list (or set the monitoring pointer when isMonitoringInstance), append
nodeID to the API list when isAPIInstance, store the record back under the
cluster name and persist the whole configuration. -/
def addNodeToClustersConfig (store : Option ClustersConfig) (network : NetworkKind)
    (nodeID clusterName : String) (isAPIInstance isMonitoringInstance : Bool) :
    ClustersConfig :=
  let clustersConfig := store.getD emptyClustersConfig
  let c0 := (clustersConfig.Clusters clusterName).getD ClusterConfig.zero
  let c1 := { c0 with Network := network }
  let c2 :=
    if isMonitoringInstance then { c1 with MonitoringInstance := nodeID }
    else { c1 with Nodes := c1.Nodes ++ [nodeID] }
  let c3 :=
    if isAPIInstance then { c2 with APINodes := c2.APINodes ++ [nodeID] }
    else c2
  { clustersConfig with
    Clusters := fun c => if c = clusterName then some c3 else clustersConfig.Clusters c }

/-- The C7 claim as stated, at one call with isMonitoringInstance false:
the configuration after the call equals the one before it except that the
named cluster record has the node identifier appended to its node list, and
to its API list when isAPIInstance; in particular every other field of the
named cluster record, its network included, is unchanged. -/
def claimC7Holds (store : Option ClustersConfig) (network : NetworkKind)
    (nodeID clusterName : String) (isAPIInstance : Bool) : Prop :=
  let before := store.getD emptyClustersConfig
  let old := (before.Clusters clusterName).getD ClusterConfig.zero
  let after := addNodeToClustersConfig store network nodeID clusterName isAPIInstance false
  after.Clusters clusterName
      = some { old with
          Nodes := old.Nodes ++ [nodeID],
          APINodes := old.APINodes ++ (if isAPIInstance then [nodeID] else []) }
    ∧ (∀ c, c ≠ clusterName → after.Clusters c = before.Clusters c)
    ∧ after.KeyPair = before.KeyPair

/-- Stored configuration for the C7 counterexample: cluster alpha was
created on Fuji with one node. -/
def c7Before : ClustersConfig :=
  ⟨fun _ => none,
   fun c => if c = "alpha" then some ⟨.Fuji, "", ["node-0"], []⟩ else none⟩

/-- C7 counterexample: create.go line 852 overwrites the cluster network
field with the given network on every call, so adding a node with a
network different from the stored one changes the named cluster record
beyond the node list: its network flips from Fuji to Devnet, refuting the
claim that everything except the node lists is unchanged. -/
theorem C7_counterexample :
    ¬ claimC7Holds (some c7Before) .Devnet ("node-1") ("alpha") false := by
  intro hcl
  obtain ⟨h1, -, -⟩ := hcl
  have h2 := congrArg (fun r => (r.getD ClusterConfig.zero).Network) h1
  simp [addNodeToClustersConfig, c7Before, emptyClustersConfig, ClusterConfig.zero] at h2

/-- The record stored for a cluster name, or the zero record when the
store or the cluster name is absent. -/
def storedCluster (store : Option ClustersConfig) (clusterName : String) : ClusterConfig :=
  ((store.getD emptyClustersConfig).Clusters clusterName).getD ClusterConfig.zero

/-- C7 amended: with isMonitoringInstance false the persisted configuration
after the call equals the one before it except at the named cluster, whose
record keeps its monitoring pointer, gets its network overwritten with the
given network, its node list extended by the node identifier (starting from
the empty record on first addition) and its API list extended by it when
isAPIInstance; no node identifier is removed, and every other cluster
record and the key pair map are unchanged. -/
theorem C7_amended_append_semantics (store : Option ClustersConfig)
    (network : NetworkKind) (nodeID clusterName : String) (isAPIInstance : Bool) :
    (addNodeToClustersConfig store network nodeID clusterName isAPIInstance false).Clusters
        clusterName
      = some { Network := network,
               MonitoringInstance := (storedCluster store clusterName).MonitoringInstance,
               Nodes := (storedCluster store clusterName).Nodes ++ [nodeID],
               APINodes := (storedCluster store clusterName).APINodes
                 ++ (if isAPIInstance then [nodeID] else []) }
    ∧ (∀ c, c ≠ clusterName →
        (addNodeToClustersConfig store network nodeID clusterName
          isAPIInstance false).Clusters c
          = (store.getD emptyClustersConfig).Clusters c)
    ∧ (addNodeToClustersConfig store network nodeID clusterName
        isAPIInstance false).KeyPair
        = (store.getD emptyClustersConfig).KeyPair := by
  refine ⟨?_, ?_, rfl⟩
  · simp only [addNodeToClustersConfig, storedCluster]
    cases isAPIInstance <;> simp
  · intro c hc
    simp only [addNodeToClustersConfig]
    simp [hc]

/-! ## Plain RunOverSSH and the CLI from source flag (src/unnamed/part_001) -/

namespace sshplain

/-- scriptInputs from src/unnamed/part_001: the template variables of the
embedded shell scripts. -/
structure ScriptInputs where
  AvalancheGoVersion : String
  SubnetExportFileName : String
  SubnetName : String
  GoVersion : String
  CliBranch : String
  IsDevNet : Bool
  NetworkFlag : String
  SubnetEVMBinaryPath : String
  SubnetEVMReleaseURL : String
  SubnetEVMArchive : String
  MonitoringDashboardPath : String
  AvalancheGoPorts : String
  MachinePorts : String
deriving DecidableEq, Repr

/-- The zero value of ScriptInputs, matching the Go composite literal with
omitted fields. -/
def ScriptInputs.empty : ScriptInputs :=
  ⟨"", "", "", "", "", false, "", "", "", "", "", "", ""⟩

/-- Environment of one RunOverSSH call: the embedded script file system,
the template engine (template parse and execute combined, either of which
may fail), and the remote Command execution on the target host with the
per call timeout, returning the error of the rendered script run. -/
structure SSHEnv where
  readFile : String → Except GoError String
  render : String → ScriptInputs → Except GoError String
  command : String → Option GoError

/-- RunOverSSH from src/unnamed/part_001 lines 212-239: read the script at
scriptPath, render it with the template variables, and execute the rendered
body on the host exactly once; any failure aborts.  The second component
lists the remote command bodies executed. -/
def RunOverSSH (env : SSHEnv) (scriptDesc : String) (scriptPath : String)
    (templateVars : ScriptInputs) : Option GoError × List String :=
  match env.readFile scriptPath with
  | .error e => (some e, [])
  | .ok shellScript =>
    match env.render shellScript templateVars with
    | .error e => (some e, [])
    | .ok s =>
      match env.command s with
      | some e => (some e, [s])
      | none => (none, [s])

/-- RunSSHSetupCLIFromSource from src/unnamed/part_001 lines 439-450: when
the feature flag is off, return nil without touching the host; otherwise
run shell/setupCLIFromSource.sh rendered with the given branch.  The
constant constants.EnableSetupCLIFromSource is not under src/, so the flag
value is the parameter enableSetupCLIFromSource. -/
def RunSSHSetupCLIFromSource (enableSetupCLIFromSource : Bool) (env : SSHEnv)
    (cliBranch : String) : Option GoError × List String :=
  if !enableSetupCLIFromSource then (none, [])
  else
    RunOverSSH env ("Setup CLI From Source") ("shell/setupCLIFromSource.sh")
      { ScriptInputs.empty with CliBranch := cliBranch }

/-- C8: with the feature flag false, RunSSHSetupCLIFromSource returns nil
and executes no remote command; with the flag true it performs exactly the
RunOverSSH call on shell/setupCLIFromSource.sh with the given branch as the
CliBranch template variable, and when read and render succeed the single
remote command executed is that rendered script. -/
theorem C8_cli_from_source_flag (env : SSHEnv) (cliBranch : String)
    (sh rendered : String)
    (hread : env.readFile ("shell/setupCLIFromSource.sh") = .ok sh)
    (hrender : env.render sh { ScriptInputs.empty with CliBranch := cliBranch }
        = .ok rendered) :
    RunSSHSetupCLIFromSource false env cliBranch = (none, [])
    ∧ RunSSHSetupCLIFromSource true env cliBranch
        = RunOverSSH env ("Setup CLI From Source") ("shell/setupCLIFromSource.sh")
            { ScriptInputs.empty with CliBranch := cliBranch }
    ∧ (RunSSHSetupCLIFromSource true env cliBranch).2 = [rendered] := by
  refine ⟨rfl, rfl, ?_⟩
  show (RunOverSSH env ("Setup CLI From Source") ("shell/setupCLIFromSource.sh")
    { ScriptInputs.empty with CliBranch := cliBranch }).2 = [rendered]
  simp only [RunOverSSH, hread, hrender]
  cases env.command rendered <;> rfl

/-- Concrete environment for the C8 witness. -/
def c8env : SSHEnv :=
  ⟨fun p => if p = "shell/setupCLIFromSource.sh" then .ok ("git clone CLI")
    else .error ("file does not exist"),
   fun sh v => .ok (sh ++ " " ++ v.CliBranch),
   fun _ => none⟩

theorem C8_witness :
    (c8env.readFile ("shell/setupCLIFromSource.sh") = .ok ("git clone CLI")
      ∧ c8env.render ("git clone CLI") { ScriptInputs.empty with CliBranch := "main" }
          = .ok ("git clone CLI main"))
    ∧ (RunSSHSetupCLIFromSource false c8env ("main") = (none, [])
      ∧ RunSSHSetupCLIFromSource true c8env ("main")
          = RunOverSSH c8env ("Setup CLI From Source") ("shell/setupCLIFromSource.sh")
              { ScriptInputs.empty with CliBranch := "main" }
      ∧ (RunSSHSetupCLIFromSource true c8env ("main")).2 = ["git clone CLI main"]) :=
  ⟨⟨rfl, rfl⟩,
   C8_cli_from_source_flag c8env ("main") ("git clone CLI") ("git clone CLI main") rfl rfl⟩

end sshplain

end AvalancheCLI
